import Mathlib

/-!
Shallow embedding of the mental-wellness backend (src/backend/app.py) in Lean 4.

Python strings are modelled as lists of characters (List Char).  Character
classes (str.isspace, str.splitlines line breaks, the control-character class
of sanitize_text's regex) follow CPython's semantics on the code points they
enumerate; Python's str.lower is modelled on ASCII letters, which covers every
string constant the backend compares against.
-/

namespace MentalWellness

/-- Python str.isspace / regex backslash-s character class (they coincide in
CPython for str patterns): tab, the line-break controls, space, NEL, NBSP and
the Unicode space separators. -/
def pyIsSpace (c : Char) : Bool :=
  c.toNat = 0x09 || c.toNat = 0x0a || c.toNat = 0x0b || c.toNat = 0x0c ||
  c.toNat = 0x0d || c.toNat = 0x1c || c.toNat = 0x1d || c.toNat = 0x1e ||
  c.toNat = 0x1f || c.toNat = 0x20 || c.toNat = 0x85 || c.toNat = 0xa0 ||
  c.toNat = 0x1680 || (0x2000 ≤ c.toNat && c.toNat ≤ 0x200a) ||
  c.toNat = 0x2028 || c.toNat = 0x2029 || c.toNat = 0x202f ||
  c.toNat = 0x205f || c.toNat = 0x3000

/-- Python str.strip() with no argument: drop whitespace from both ends. -/
def pyStrip (s : List Char) : List Char :=
  ((s.dropWhile pyIsSpace).reverse.dropWhile pyIsSpace).reverse

/-- The character class of the regex [\x00-\x08\x0b-\x0c\x0e-\x1f] used in
sanitize_text (src/backend/app.py line 33). -/
def isCtrl (c : Char) : Bool :=
  c.toNat ≤ 0x08 || (0x0b ≤ c.toNat && c.toNat ≤ 0x0c) ||
  (0x0e ≤ c.toNat && c.toNat ≤ 0x1f)

/-- sanitize_text (src/backend/app.py lines 27-34): falsy (absent or empty)
input yields the empty string; otherwise strip whitespace, truncate to
max_len characters, then replace each control character with one space. -/
def sanitize_text (text : Option (List Char)) (maxLen : Nat := 800) : List Char :=
  match text with
  | none => []
  | some s =>
    if s = [] then []
    else ((pyStrip s).take maxLen).map (fun c => if isCtrl c then ' ' else c)

theorem sanitize_length_le (text : Option (List Char)) (maxLen : Nat) :
    (sanitize_text text maxLen).length ≤ maxLen := by
  unfold sanitize_text
  cases text with
  | none => simp
  | some s =>
    by_cases h : s = [] <;> simp [h, List.length_take]

theorem sanitize_no_ctrl (text : Option (List Char)) (maxLen : Nat) :
    ∀ c ∈ sanitize_text text maxLen, isCtrl c = false := by
  unfold sanitize_text
  cases text with
  | none => simp
  | some s =>
    by_cases h : s = []
    · simp [h]
    · simp only [h, if_false]
      intro c hc
      rcases List.mem_map.mp hc with ⟨a, _, ha⟩
      by_cases hca : isCtrl a = true
      · simp [hca] at ha
        subst ha
        decide
      · simp [hca] at ha
        subst ha
        simpa using hca

/-- C6: sanitize returns a string of length at most max_len, free of the
control ranges 0x00-0x08, 0x0B-0x0C, 0x0E-0x1F (each such character replaced
by a single space, so per-character length is preserved with no collapsing);
empty or absent (None) input yields the empty string; the function is a pure
total Lean function. -/
theorem C6_sanitize_spec (text : Option (List Char)) (maxLen : Nat) :
    (sanitize_text text maxLen).length ≤ maxLen ∧
    (∀ c ∈ sanitize_text text maxLen,
      ¬(c.toNat ≤ 0x08 ∨ (0x0b ≤ c.toNat ∧ c.toNat ≤ 0x0c) ∨
        (0x0e ≤ c.toNat ∧ c.toNat ≤ 0x1f))) ∧
    sanitize_text none maxLen = [] ∧
    sanitize_text (some []) maxLen = [] ∧
    (∀ s : List Char,
      (sanitize_text (some s) maxLen).length = ((pyStrip s).take maxLen).length) ∧
    (∀ s : List Char, ∀ i : Nat,
      (sanitize_text (some s) maxLen).get? i =
        (((pyStrip s).take maxLen).get? i).map
          (fun c => if isCtrl c then ' ' else c)) := by
  refine ⟨sanitize_length_le text maxLen, ?_, rfl, by simp [sanitize_text], ?_, ?_⟩
  · intro c hc
    have h := sanitize_no_ctrl text maxLen c hc
    unfold isCtrl at h
    simp only [Bool.or_eq_false_iff, decide_eq_false_iff_not, Bool.and_eq_false_iff,
      not_le, not_lt] at h
    omega
  · intro s
    by_cases h : s = []
    · simp [sanitize_text, h, pyStrip]
    · simp [sanitize_text, h]
  · intro s i
    by_cases h : s = []
    · simp [sanitize_text, h, pyStrip]
    · simp [sanitize_text, h, ← List.map_take, List.getElem?_map]

theorem C6_sanitize_spec_witness :
    (sanitize_text (some ("  a\x00b ".data)) 800).length ≤ 800 ∧
    (sanitize_text (some ("ab".data)) 800).length =
      ((pyStrip ("ab".data)).take 800).length ∧
    ¬((' ').toNat ≤ 0x08 ∨ (0x0b ≤ (' ').toNat ∧ (' ').toNat ≤ 0x0c) ∨
      (0x0e ≤ (' ').toNat ∧ (' ').toNat ≤ 0x1f)) :=
  ⟨(C6_sanitize_spec (some ("  a\x00b ".data)) 800).1,
   (C6_sanitize_spec (some ("x".data)) 800).2.2.2.2.1 ("ab".data),
   (C6_sanitize_spec (some ("a\x00b".data)) 800).2.1 ' ' (by decide)⟩

/-- Python str.lower on ASCII letters (sufficient for the constants the
backend compares against). -/
def pyLowerChar (c : Char) : Char :=
  if 'A' ≤ c ∧ c ≤ 'Z' then Char.ofNat (c.toNat + 32) else c

/-- str(a).lower() for a string answer a. -/
def pyLower (s : List Char) : List Char := s.map pyLowerChar

/-- The accumulator loop of stigma_score (src/backend/app.py lines 108-114):
for each answer, lower-case it; membership in the first tuple adds 2,
membership in the second adds 1. -/
def stigma_score_raw (answers : List (List Char)) : Nat :=
  answers.foldl
    (fun score a =>
      if pyLower a ∈ [("yes".data), ("often".data), ("always".data),
          ("agree".data), ("defend".data)] then score + 2
      else if pyLower a ∈ [("maybe".data), ("sometimes".data)] then score + 1
      else score)
    0

/-- The banding chain of stigma_score (src/backend/app.py lines 115-120). -/
def stigma_level_of (score : Nat) : List Char :=
  if score ≤ 2 then ("Low".data)
  else if score ≤ 4 then ("Medium".data)
  else ("High".data)

/-- POST /stigma_score handler (src/backend/app.py lines 104-121): a missing
body or missing answers key defaults to the empty list; the response carries
the stigma_level and the raw_score. -/
def stigma_score (answers : Option (List (List Char))) : List Char × Nat :=
  match answers with
  | none => (stigma_level_of (stigma_score_raw []), stigma_score_raw [])
  | some as => (stigma_level_of (stigma_score_raw as), stigma_score_raw as)

/-- The per-answer contribution exactly as the claim words it: lower-case the
answer; 2 for the first set, 1 for the second, 0 otherwise. -/
def claimContribution (a : List Char) : Nat :=
  if pyLower a = ("yes".data) ∨ pyLower a = ("often".data) ∨
     pyLower a = ("always".data) ∨ pyLower a = ("agree".data) ∨
     pyLower a = ("defend".data) then 2
  else if pyLower a = ("maybe".data) ∨ pyLower a = ("sometimes".data) then 1
  else 0

theorem stigma_raw_foldl (answers : List (List Char)) (n : Nat) :
    answers.foldl
      (fun score a =>
        if pyLower a ∈ [("yes".data), ("often".data), ("always".data),
            ("agree".data), ("defend".data)] then score + 2
        else if pyLower a ∈ [("maybe".data), ("sometimes".data)] then score + 1
        else score)
      n = n + (answers.map claimContribution).sum := by
  induction answers generalizing n with
  | nil => simp
  | cons a as ih =>
    simp only [List.foldl_cons, List.map_cons, List.sum_cons, ih]
    unfold claimContribution
    by_cases h2 : pyLower a = ("yes".data) ∨ pyLower a = ("often".data) ∨
        pyLower a = ("always".data) ∨ pyLower a = ("agree".data) ∨
        pyLower a = ("defend".data)
    · have hm2 : pyLower a ∈ [("yes".data), ("often".data), ("always".data),
          ("agree".data), ("defend".data)] := by
        simpa using h2
      rw [if_pos hm2, if_pos h2]
      omega
    · have hm2 : pyLower a ∉ [("yes".data), ("often".data), ("always".data),
          ("agree".data), ("defend".data)] := by
        simpa using h2
      rw [if_neg hm2, if_neg h2]
      by_cases h1 : pyLower a = ("maybe".data) ∨ pyLower a = ("sometimes".data)
      · have hm1 : pyLower a ∈ [("maybe".data), ("sometimes".data)] := by
          simpa using h1
        rw [if_pos hm1, if_pos h1]
        omega
      · have hm1 : pyLower a ∉ [("maybe".data), ("sometimes".data)] := by
          simpa using h1
        rw [if_neg hm1, if_neg h1]
        omega

theorem stigma_raw_eq_sum (answers : List (List Char)) :
    stigma_score_raw answers = (answers.map claimContribution).sum := by
  unfold stigma_score_raw
  simpa using stigma_raw_foldl answers 0

theorem stigma_level_iff (n : Nat) :
    (stigma_level_of n = ("Low".data) ↔ n ≤ 2) ∧
    (stigma_level_of n = ("Medium".data) ↔ (n = 3 ∨ n = 4)) ∧
    (stigma_level_of n = ("High".data) ↔ 5 ≤ n) := by
  unfold stigma_level_of
  by_cases h2 : n ≤ 2
  · rw [if_pos h2]
    refine ⟨⟨fun _ => h2, fun _ => rfl⟩, ⟨fun h => absurd h (by decide), ?_⟩,
      ⟨fun h => absurd h (by decide), ?_⟩⟩ <;> omega
  · rw [if_neg h2]
    by_cases h4 : n ≤ 4
    · rw [if_pos h4]
      refine ⟨⟨fun h => absurd h (by decide), ?_⟩, ⟨fun _ => by omega, fun _ => rfl⟩,
        ⟨fun h => absurd h (by decide), ?_⟩⟩ <;> omega
    · rw [if_neg h4]
      refine ⟨⟨fun h => absurd h (by decide), ?_⟩, ⟨fun h => absurd h (by decide), ?_⟩,
        ⟨fun _ => by omega, fun _ => rfl⟩⟩ <;> omega

/-- C1: the raw_score returned by POST /stigma_score is the sum over the
answers of the per-answer contribution (lower-case; 2 for the yes-like set,
1 for the maybe-like set, 0 otherwise); the stigma_level is Low exactly when
the sum is at most 2, Medium exactly when it is 3 or 4, High exactly when it
is at least 5; a missing answers list is treated as empty, giving raw_score 0
and level Low. -/
theorem C1_stigma_score_spec (answers : Option (List (List Char))) :
    (stigma_score answers).2 =
      ((answers.getD []).map claimContribution).sum ∧
    ((stigma_score answers).1 = ("Low".data) ↔ (stigma_score answers).2 ≤ 2) ∧
    ((stigma_score answers).1 = ("Medium".data) ↔
      ((stigma_score answers).2 = 3 ∨ (stigma_score answers).2 = 4)) ∧
    ((stigma_score answers).1 = ("High".data) ↔ 5 ≤ (stigma_score answers).2) ∧
    stigma_score none = (("Low".data), 0) := by
  have hval : (stigma_score answers).2 = stigma_score_raw (answers.getD []) := by
    cases answers <;> rfl
  have hlev : (stigma_score answers).1 = stigma_level_of (stigma_score answers).2 := by
    cases answers <;> rfl
  refine ⟨?_, ?_, ?_, ?_, by decide⟩
  · rw [hval, stigma_raw_eq_sum]
  · rw [hlev]; exact (stigma_level_iff _).1
  · rw [hlev]; exact (stigma_level_iff _).2.1
  · rw [hlev]; exact (stigma_level_iff _).2.2

/-- The sentinel string [AI error: reason] built by the except branch of
generate_with_gemini (src/backend/app.py line 47). -/
def aiError (reason : List Char) : List Char :=
  ("[AI error: ".data) ++ reason ++ ("]".data)

/-- One call to the external provider, as observed by generate_with_gemini:
either the call raises (fail, with the textual reason of the exception), or
it returns a response carrying an optional primary text and a list of
candidates, each candidate being the list of the text of its content parts. -/
inductive ProviderOutcome where
  | fail (reason : List Char)
  | ok (text : Option (List Char)) (candidates : List (List (List Char)))

/-- generate_with_gemini (src/backend/app.py lines 36-47).  A falsy primary
text falls back to candidates[0].content.parts[0].text when candidates is a
non-empty list; indexing into an empty parts list raises IndexError, which
the except branch turns into the sentinel; the chosen text (or the sentinel
for an empty response) is sanitized before being returned, but the except
branch returns its sentinel unsanitized. -/
def generate_with_gemini (o : ProviderOutcome) : List Char :=
  match o with
  | .fail reason => aiError reason
  | .ok t cands =>
    if t.getD [] ≠ [] then sanitize_text (some (t.getD []))
    else
      match cands with
      | [] => sanitize_text (some ("[AI error: empty response]".data))
      | parts :: _ =>
        match parts with
        | [] => aiError ("list index out of range".data)
        | p :: _ =>
          if p ≠ [] then sanitize_text (some p)
          else sanitize_text (some ("[AI error: empty response]".data))

/-- C3: generate_with_gemini is a total function (the embedding returns a
string on every outcome, never an exception): on a raised failure it returns
the sentinel [AI error: reason]; on success it returns the sanitized primary
text; when the primary text is falsy it falls back to the first candidate's
first content part; when no usable candidate exists the result is again a
string of the sentinel shape. -/
theorem C3_generate_spec :
    (∀ reason, generate_with_gemini (.fail reason) = aiError reason) ∧
    (∀ t cands, t.getD [] ≠ [] →
      generate_with_gemini (.ok t cands) = sanitize_text (some (t.getD []))) ∧
    (∀ t, t.getD [] = [] →
      generate_with_gemini (.ok t []) = aiError ("empty response".data)) ∧
    (∀ t p ps rest, t.getD [] = [] → p ≠ [] →
      generate_with_gemini (.ok t ((p :: ps) :: rest)) = sanitize_text (some p)) ∧
    (∀ t rest, t.getD [] = [] →
      generate_with_gemini (.ok t ([] :: rest)) =
        aiError ("list index out of range".data)) ∧
    (∀ t ps rest, t.getD [] = [] →
      generate_with_gemini (.ok t (([] :: ps) :: rest)) =
        aiError ("empty response".data)) := by
  refine ⟨fun _ => rfl, ?_, ?_, ?_, ?_, ?_⟩
  · intro t cands h
    simp [generate_with_gemini, h]
  · intro t h
    simp only [generate_with_gemini, h, ne_eq, not_true_eq_false, if_false]
    decide
  · intro t p ps rest h hp
    simp [generate_with_gemini, h, hp]
  · intro t rest h
    simp [generate_with_gemini, h]
  · intro t ps rest h
    simp only [generate_with_gemini, h, ne_eq, not_true_eq_false, if_false]
    decide

theorem C3_generate_spec_witness :
    generate_with_gemini (.fail ("boom".data)) = aiError ("boom".data) ∧
    generate_with_gemini (.ok (some ("hello".data)) []) =
      sanitize_text (some ("hello".data)) ∧
    generate_with_gemini (.ok none []) = aiError ("empty response".data) ∧
    generate_with_gemini (.ok none ([("world".data)] :: [])) =
      sanitize_text (some ("world".data)) ∧
    generate_with_gemini (.ok none ([] :: [])) =
      aiError ("list index out of range".data) :=
  ⟨C3_generate_spec.1 ("boom".data),
   C3_generate_spec.2.1 (some ("hello".data)) [] (by decide),
   C3_generate_spec.2.2.1 none (by decide),
   C3_generate_spec.2.2.2.1 none ("world".data) [] [] (by decide) (by decide),
   C3_generate_spec.2.2.2.2.1 none [] (by decide)⟩

/-- C7 counterexample: the claim says every string returned by
generate_with_gemini is an output of sanitize_text, but the except branch
returns the sentinel unsanitized: when the exception text contains the
control character 0x00, the returned string contains 0x00, which no
sanitize_text output ever does. -/
theorem C7_counterexample :
    ¬ ∃ (t : Option (List Char)) (maxLen : Nat),
        sanitize_text t maxLen = generate_with_gemini (.fail (['\x00'])) := by
  rintro ⟨t, maxLen, h⟩
  have hmem : '\x00' ∈ sanitize_text t maxLen := by
    rw [h]; decide
  have hctrl := sanitize_no_ctrl t maxLen '\x00' hmem
  exact absurd hctrl (by decide)

/-- C7 amended: the sanitizer is applied to the returned text on every path
through the try block (non-empty primary text, candidate fallback, empty
response, and even the IndexError sentinel happens to be sanitize-fixed), so
every response-outcome result is a sanitize_text output; but the except
branch returns the raw sentinel [AI error: reason] unsanitized, and for some
reasons (for example one containing 0x00) that string is not a sanitize_text
output. -/
theorem C7_amended_sanitize :
    (∀ t cands, ∃ u, generate_with_gemini (.ok t cands) =
        sanitize_text (some u) 800) ∧
    (∀ reason, generate_with_gemini (.fail reason) = aiError reason) ∧
    (∃ reason, ∀ (t : Option (List Char)) (maxLen : Nat),
        sanitize_text t maxLen ≠ generate_with_gemini (.fail reason)) := by
  refine ⟨?_, fun _ => rfl, ⟨['\x00'], ?_⟩⟩
  · intro t cands
    by_cases h : t.getD [] = []
    · cases cands with
      | nil =>
        refine ⟨("[AI error: empty response]".data), ?_⟩
        simp only [generate_with_gemini, h, ne_eq, not_true_eq_false, if_false]
      | cons parts rest =>
        cases parts with
        | nil =>
          refine ⟨("[AI error: list index out of range]".data), ?_⟩
          simp only [generate_with_gemini, h, ne_eq, not_true_eq_false, if_false]
          decide
        | cons p ps =>
          by_cases hp : p = []
          · refine ⟨("[AI error: empty response]".data), ?_⟩
            simp [generate_with_gemini, h, hp]
          · refine ⟨p, ?_⟩
            simp [generate_with_gemini, h, hp]
    · exact ⟨t.getD [], by simp [generate_with_gemini, h]⟩
  · intro t maxLen h
    have hmem : '\x00' ∈ sanitize_text t maxLen := by
      rw [h]; decide
    have hctrl := sanitize_no_ctrl t maxLen '\x00' hmem
    exact absurd hctrl (by decide)

/-- Python line-break characters recognised by str.splitlines. -/
def isLineBreak (c : Char) : Bool :=
  c.toNat = 0x0a || c.toNat = 0x0b || c.toNat = 0x0c || c.toNat = 0x0d ||
  c.toNat = 0x1c || c.toNat = 0x1d || c.toNat = 0x1e || c.toNat = 0x85 ||
  c.toNat = 0x2028 || c.toNat = 0x2029

/-- Worker for splitlines: acc holds the current line reversed; a CRLF pair
counts as one break; a final unterminated non-empty segment becomes the last
line (Python drops a trailing empty segment). -/
def splitlinesAux : List Char → List Char → List (List Char)
  | [], acc => if acc.isEmpty then [] else [acc.reverse]
  | '\x0d' :: '\x0a' :: cs, acc => acc.reverse :: splitlinesAux cs []
  | c :: cs, acc =>
    if isLineBreak c then acc.reverse :: splitlinesAux cs []
    else splitlinesAux cs (c :: acc)

/-- Python str.splitlines(). -/
def splitlines (s : List Char) : List (List Char) := splitlinesAux s []

/-- The character set of line.strip("0123456789. -") in get_questions
(src/backend/app.py line 63): digits, the dot, the space and the hyphen. -/
def qMarker (c : Char) : Bool :=
  ('0' ≤ c && c ≤ '9') || c = '.' || c = ' ' || c = '-'

/-- Python str.strip("0123456789. -"): drops the marker characters from BOTH
ends of the line. -/
def pyStripMarkers (s : List Char) : List Char :=
  ((s.dropWhile qMarker).reverse.dropWhile qMarker).reverse

/-- The question-extraction pipeline of get_questions (src/backend/app.py
lines 63-64): split into lines, keep lines that are non-blank after a
whitespace strip, strip the marker characters from both ends, keep results
longer than 5 characters, take the first 3. -/
def extractQuestions (text : List Char) : List (List Char) :=
  ((((splitlines text).filter (fun line => decide (pyStrip line ≠ []))).map
      pyStripMarkers).filter (fun q => decide (5 < q.length))).take 3

/-- The fixed default question list (src/backend/app.py lines 68-72). -/
def defaultQuestions : List (List Char) :=
  [("Do you avoid sharing feelings because of judgment?".data),
   ("Have you ever felt ashamed asking for mental health help?".data),
   ("Do you think seeking help is a weakness?".data)]

/-- The cache-miss body of get_questions (src/backend/app.py lines 63-72):
extract the questions from the provider text; if fewer than 3 survive, the
partial list is discarded and the default set is used. -/
def get_questions_fresh (text : List Char) : List (List Char) :=
  if (extractQuestions text).length < 3 then defaultQuestions
  else extractQuestions text

/-- The fixed default scenario (src/backend/app.py line 100). -/
def defaultScenario : List Char :=
  ("In a group study, a friend says \x27You are just lazy\x27 when you mention stress.".data)

/-- The cache-miss body of get_scenario (src/backend/app.py lines 97-100):
the scenario is the first line of the whitespace-stripped provider text (the
stripped text starts with a non-whitespace character, so in Python the line
list is non-empty and its first line is non-blank; headD totalises the [0]
indexing); a falsy scenario is replaced by the fixed default. -/
def get_scenario_fresh (text : List Char) : List Char :=
  if (if pyStrip text = [] then ([] : List Char)
      else (splitlines (pyStrip text)).headD []) = [] then defaultScenario
  else if pyStrip text = [] then [] else (splitlines (pyStrip text)).headD []

theorem extractQuestions_length_le (text : List Char) :
    (extractQuestions text).length ≤ 3 := by
  unfold extractQuestions
  simp only [List.length_take]
  exact min_le_left _ _

theorem extractQuestions_mem_long (text : List Char) :
    ∀ q ∈ extractQuestions text, 5 < q.length := by
  intro q hq
  unfold extractQuestions at hq
  have hq2 := List.take_subset _ _ hq
  exact of_decide_eq_true (List.mem_filter.mp hq2).2

theorem extractQuestions_mem_src (text : List Char) :
    ∀ q ∈ extractQuestions text,
      ∃ line ∈ splitlines text, pyStrip line ≠ [] ∧ q = pyStripMarkers line := by
  intro q hq
  unfold extractQuestions at hq
  have hq2 := List.take_subset _ _ hq
  have hq3 := (List.mem_filter.mp hq2).1
  rcases List.mem_map.mp hq3 with ⟨line, hline, hEq⟩
  have h4 := List.mem_filter.mp hline
  exact ⟨line, h4.1, of_decide_eq_true h4.2, hEq.symm⟩

theorem get_questions_fresh_length (text : List Char) :
    (get_questions_fresh text).length = 3 := by
  unfold get_questions_fresh
  by_cases h : (extractQuestions text).length < 3
  · rw [if_pos h]
    rfl
  · rw [if_neg h]
    have := extractQuestions_length_le text
    omega

theorem get_questions_fresh_long (text : List Char) :
    ∀ q ∈ get_questions_fresh text, 5 < q.length := by
  unfold get_questions_fresh
  by_cases h : (extractQuestions text).length < 3
  · rw [if_pos h]
    decide
  · rw [if_neg h]
    exact extractQuestions_mem_long text

theorem get_scenario_fresh_ne_nil (text : List Char) :
    get_scenario_fresh text ≠ [] := by
  unfold get_scenario_fresh
  by_cases h : (if pyStrip text = [] then ([] : List Char)
      else (splitlines (pyStrip text)).headD []) = []
  · rw [if_pos h]
    decide
  · rw [if_neg h]
    by_cases h2 : pyStrip text = []
    · rw [if_pos h2]
      rw [if_pos h2] at h
      exact absurd rfl h
    · rw [if_neg h2]
      rw [if_neg h2] at h
      exact h

/-- C4 counterexample: on the provider text of the claim the pipeline does
not return Foo, Bar, Baz: the stripped lines have length 3, the
longer-than-5 filter removes all of them, and the extraction yields the
empty list. -/
theorem C4_counterexample :
    extractQuestions ("1. Foo\n2. Bar\n3. Baz".data) = [] ∧
    extractQuestions ("1. Foo\n2. Bar\n3. Baz".data) ≠
      [("Foo".data), ("Bar".data), ("Baz".data)] := by
  constructor
  · decide
  · decide

/-- C4 amended: the pipeline strips the marker characters (digits, dot,
hyphen, space — the right parenthesis is not in the set) from BOTH ends of
each line, discards lines blank after a whitespace strip, keeps stripped
lines longer than 5 characters and takes at most the first 3; on the
claim's example every stripped line has length 3, so the result is empty
(and the endpoint then falls back to the default list). -/
theorem C4_amended_extraction :
    extractQuestions ("1. Foo\n2. Bar\n3. Baz".data) = [] ∧
    extractQuestions ("1. Is this fine - 2".data) = [("Is this fine".data)] ∧
    extractQuestions ("1) Hello there".data) = [(") Hello there".data)] ∧
    (∀ text, (extractQuestions text).length ≤ 3) ∧
    (∀ text, ∀ q ∈ extractQuestions text, 5 < q.length) ∧
    (∀ text, ∀ q ∈ extractQuestions text,
      ∃ line ∈ splitlines text, pyStrip line ≠ [] ∧ q = pyStripMarkers line) := by
  exact ⟨by decide, by decide, by decide, extractQuestions_length_le,
    extractQuestions_mem_long, extractQuestions_mem_src⟩

theorem C4_amended_extraction_witness :
    5 < ("Is this fine".data).length ∧
    (∃ line ∈ splitlines ("1. Is this fine - 2".data),
      pyStrip line ≠ [] ∧ ("Is this fine".data) = pyStripMarkers line) :=
  ⟨C4_amended_extraction.2.2.2.2.1 ("1. Is this fine - 2".data)
      ("Is this fine".data) (by decide),
   C4_amended_extraction.2.2.2.2.2 ("1. Is this fine - 2".data)
      ("Is this fine".data) (by decide)⟩

/-- C2 counterexample: on a provider failure the Generation Client returns
the sentinel [AI error: boom]; get_scenario takes its first line, which is
the sentinel itself, so the sentinel error text is returned as the scenario
(the fixed default is not substituted). -/
theorem C2_counterexample :
    get_scenario_fresh (generate_with_gemini (.fail ("boom".data))) =
      aiError ("boom".data) ∧
    aiError ("boom".data) ≠ defaultScenario := by
  constructor
  · decide
  · decide

/-- C2 amended: the scenario is the first line of the whitespace-stripped
provider text and the fixed default is substituted exactly when the
stripped text is empty; the response is always a non-empty string, but on a
provider failure the first line of the sentinel is the sentinel itself, so
the raw sentinel error text is surfaced as the scenario. -/
theorem C2_amended_scenario :
    (∀ text, pyStrip text = [] → get_scenario_fresh text = defaultScenario) ∧
    (∀ text l rest, splitlines (pyStrip text) = l :: rest →
      get_scenario_fresh text = (if l = [] then defaultScenario else l)) ∧
    (∀ text, get_scenario_fresh text ≠ []) ∧
    get_scenario_fresh (generate_with_gemini (.fail ("boom".data))) =
      aiError ("boom".data) := by
  refine ⟨?_, ?_, get_scenario_fresh_ne_nil, by decide⟩
  · intro text h
    simp [get_scenario_fresh, h]
  · intro text l rest h
    have hne : pyStrip text ≠ [] := by
      intro habs
      rw [habs] at h
      simp [splitlines, splitlinesAux] at h
    by_cases hl : l = []
    · simp [get_scenario_fresh, hne, h, hl]
    · simp [get_scenario_fresh, hne, h, hl]

theorem C2_amended_scenario_witness :
    get_scenario_fresh ("   ".data) = defaultScenario ∧
    get_scenario_fresh ("hello world\nmore".data) = ("hello world".data) :=
  ⟨C2_amended_scenario.1 ("   ".data) (by decide),
   by
    have h := C2_amended_scenario.2.1 ("hello world\nmore".data)
      ("hello world".data) [("more".data)] (by decide)
    simpa using h⟩

/-- A value stored in daily_cache: get_questions stores a questions list
under the bare date key, get_scenario stores a scenario string under the
scenario-prefixed key (src/backend/app.py lines 74, 101). -/
inductive CacheVal where
  | questions (qs : List (List Char))
  | scenario (s : List Char)
deriving DecidableEq

/-- daily_cache (src/backend/app.py line 24), as an association list; a new
binding is only ever added for a key that is absent, so prepending models
the dict assignment. -/
abbrev Cache := List ((List Char) × CacheVal)

def cacheLookup (cache : Cache) (k : List Char) : Option CacheVal :=
  match cache with
  | [] => none
  | e :: rest => if e.1 = k then some e.2 else cacheLookup rest k

/-- The scenario cache key scenario-today (src/backend/app.py line 91). -/
def scenarioKey (today : List Char) : List Char := ("scenario-".data) ++ today

/-- A request to one of the two daily-cached endpoints, carrying the outcome
the provider would give if the producer runs. -/
inductive Req where
  | getQuestions (o : ProviderOutcome)
  | getScenario (o : ProviderOutcome)

/-- The cache key an endpoint uses. -/
def reqKey (today : List Char) : Req → List Char
  | .getQuestions _ => today
  | .getScenario _ => scenarioKey today

/-- One request against the daily cache (src/backend/app.py lines 51-102):
on a hit the stored value is returned verbatim and the producer is not
invoked; on a miss the producer (Generation Client plus extraction) runs
once, its result is stored, and the fresh value is returned.  Result:
(response value, whether the producer was invoked, new cache). -/
def step (today : List Char) (cache : Cache) : Req → CacheVal × Bool × Cache
  | .getQuestions o =>
    match cacheLookup cache today with
    | some v => (v, false, cache)
    | none =>
      (.questions (get_questions_fresh (generate_with_gemini o)), true,
        (today, .questions (get_questions_fresh (generate_with_gemini o))) :: cache)
  | .getScenario o =>
    match cacheLookup cache (scenarioKey today) with
    | some v => (v, false, cache)
    | none =>
      (.scenario (get_scenario_fresh (generate_with_gemini o)), true,
        (scenarioKey today, .scenario (get_scenario_fresh (generate_with_gemini o))) :: cache)

/-- A sequence of requests on one fixed date: the trace records, per
request, the response and whether the producer was invoked. -/
def run (today : List Char) : Cache → List Req → List (Req × CacheVal × Bool) × Cache
  | cache, [] => ([], cache)
  | cache, r :: rs =>
    ((r, (step today cache r).1, (step today cache r).2.1) ::
        (run today (step today cache r).2.2 rs).1,
      (run today (step today cache r).2.2 rs).2)

/-- How many requests in a trace invoked the producer for key k. -/
def invocationsFor (today k : List Char) : List (Req × CacheVal × Bool) → Nat
  | [] => 0
  | e :: tr =>
    (if reqKey today e.1 = k ∧ e.2.2 = true then 1 else 0) + invocationsFor today k tr

theorem scenarioKey_ne (today : List Char) : scenarioKey today ≠ today := by
  intro h
  have h2 := congrArg List.length h
  simp [scenarioKey] at h2
  omega

theorem step_preserves (today : List Char) (cache : Cache) (r : Req)
    (k : List Char) (v : CacheVal) (h : cacheLookup cache k = some v) :
    cacheLookup (step today cache r).2.2 k = some v := by
  cases r with
  | getQuestions o =>
    cases hlook : cacheLookup cache today with
    | some w => simpa [step, hlook] using h
    | none =>
      simp only [step, hlook]
      by_cases hk : today = k
      · subst hk
        rw [hlook] at h
        cases h
      · simpa [cacheLookup, hk] using h
  | getScenario o =>
    cases hlook : cacheLookup cache (scenarioKey today) with
    | some w => simpa [step, hlook] using h
    | none =>
      simp only [step, hlook]
      by_cases hk : scenarioKey today = k
      · subst hk
        rw [hlook] at h
        cases h
      · simpa [cacheLookup, hk] using h

theorem step_preserves_isSome (today : List Char) (cache : Cache) (r : Req)
    (k : List Char) (h : (cacheLookup cache k).isSome = true) :
    (cacheLookup (step today cache r).2.2 k).isSome = true := by
  rcases Option.isSome_iff_exists.mp h with ⟨v, hv⟩
  rw [step_preserves today cache r k v hv]
  rfl

theorem step_invoked_absent (today : List Char) (cache : Cache) (r : Req)
    (h : (step today cache r).2.1 = true) :
    cacheLookup cache (reqKey today r) = none := by
  cases r with
  | getQuestions o =>
    cases hlook : cacheLookup cache today with
    | some w => simp [step, hlook] at h
    | none => exact hlook
  | getScenario o =>
    cases hlook : cacheLookup cache (scenarioKey today) with
    | some w => simp [step, hlook] at h
    | none => exact hlook

theorem step_own_present (today : List Char) (cache : Cache) (r : Req) :
    (cacheLookup (step today cache r).2.2 (reqKey today r)).isSome = true := by
  cases r with
  | getQuestions o =>
    cases hlook : cacheLookup cache today with
    | some w => simp [step, hlook, reqKey, Option.isSome_iff_exists]
    | none => simp [step, hlook, reqKey, cacheLookup]
  | getScenario o =>
    cases hlook : cacheLookup cache (scenarioKey today) with
    | some w => simp [step, hlook, reqKey, Option.isSome_iff_exists]
    | none => simp [step, hlook, reqKey, cacheLookup]

theorem run_preserves (today : List Char) (reqs : List Req) :
    ∀ (cache : Cache) (k : List Char) (v : CacheVal),
      cacheLookup cache k = some v →
      cacheLookup (run today cache reqs).2 k = some v := by
  induction reqs with
  | nil =>
    intro cache k v h
    simpa [run] using h
  | cons r rs ih =>
    intro cache k v h
    simp only [run]
    exact ih _ k v (step_preserves today cache r k v h)

theorem run_invocations_present (today k : List Char) (reqs : List Req) :
    ∀ cache : Cache, (cacheLookup cache k).isSome = true →
      invocationsFor today k (run today cache reqs).1 = 0 := by
  induction reqs with
  | nil =>
    intro cache _
    simp [run, invocationsFor]
  | cons r rs ih =>
    intro cache h
    simp only [run, invocationsFor]
    have h0 : ¬ (reqKey today r = k ∧ (step today cache r).2.1 = true) := by
      rintro ⟨hk, hinv⟩
      have habs := step_invoked_absent today cache r hinv
      rw [hk] at habs
      rw [habs] at h
      simp at h
    rw [if_neg h0]
    simp only [Nat.zero_add]
    exact ih _ (step_preserves_isSome today cache r k h)

theorem run_invocations_le_one (today k : List Char) (reqs : List Req) :
    ∀ cache : Cache, invocationsFor today k (run today cache reqs).1 ≤ 1 := by
  induction reqs with
  | nil =>
    intro cache
    simp [run, invocationsFor]
  | cons r rs ih =>
    intro cache
    simp only [run, invocationsFor]
    by_cases h : reqKey today r = k ∧ (step today cache r).2.1 = true
    · rw [if_pos h]
      have hpres : (cacheLookup (step today cache r).2.2 k).isSome = true := by
        rw [← h.1]
        exact step_own_present today cache r
      have h0 := run_invocations_present today k rs _ hpres
      omega
    · rw [if_neg h]
      have h1 := ih ((step today cache r).2.2)
      omega

theorem cacheLookup_none_iff (k : List Char) (cache : Cache) :
    cacheLookup cache k = none ↔ k ∉ cache.map Prod.fst := by
  induction cache with
  | nil => simp [cacheLookup]
  | cons e rest ih =>
    have hunf : cacheLookup (e :: rest) k =
        if e.1 = k then some e.2 else cacheLookup rest k := rfl
    by_cases hk : e.1 = k
    · rw [hunf, if_pos hk]
      constructor
      · intro h
        exact Option.noConfusion h
      · intro h
        rw [List.map_cons] at h
        exact (h (List.mem_cons.mpr (Or.inl hk.symm))).elim
    · rw [hunf, if_neg hk, ih]
      simp only [List.map_cons, List.mem_cons]
      constructor
      · intro h hor
        rcases hor with h1 | h2
        · exact hk h1.symm
        · exact h h2
      · intro h h2
        exact h (Or.inr h2)

theorem step_nodup (today : List Char) (cache : Cache) (r : Req)
    (h : (cache.map Prod.fst).Nodup) :
    (((step today cache r).2.2).map Prod.fst).Nodup := by
  cases r with
  | getQuestions o =>
    cases hlook : cacheLookup cache today with
    | some w => simpa [step, hlook] using h
    | none =>
      simp only [step, hlook, List.map_cons]
      exact List.nodup_cons.mpr ⟨(cacheLookup_none_iff today cache).mp hlook, h⟩
  | getScenario o =>
    cases hlook : cacheLookup cache (scenarioKey today) with
    | some w => simpa [step, hlook] using h
    | none =>
      simp only [step, hlook, List.map_cons]
      exact List.nodup_cons.mpr
        ⟨(cacheLookup_none_iff (scenarioKey today) cache).mp hlook, h⟩

theorem run_nodup (today : List Char) (reqs : List Req) :
    ∀ cache : Cache, (cache.map Prod.fst).Nodup →
      (((run today cache reqs).2).map Prod.fst).Nodup := by
  induction reqs with
  | nil =>
    intro cache h
    simpa [run] using h
  | cons r rs ih =>
    intro cache h
    simp only [run]
    exact ih _ (step_nodup today cache r h)

/-- C9: on a fixed date, the cache invokes the producer at most once per key
over any request sequence; an entry, once present, is returned verbatim by
every later lookup of its key and is never overwritten; a producer
invocation happens only when the key is absent; and starting from a cache
with no duplicate keys (in particular the empty initial cache), at most one
entry ever exists per key. -/
theorem C9_cache_at_most_once (today : List Char) (cache : Cache) (reqs : List Req) :
    (∀ k, invocationsFor today k (run today cache reqs).1 ≤ 1) ∧
    (∀ k v, cacheLookup cache k = some v →
      cacheLookup (run today cache reqs).2 k = some v) ∧
    (∀ o v, cacheLookup cache today = some v →
      step today cache (Req.getQuestions o) = (v, false, cache)) ∧
    (∀ o v, cacheLookup cache (scenarioKey today) = some v →
      step today cache (Req.getScenario o) = (v, false, cache)) ∧
    (∀ r, (step today cache r).2.1 = true →
      cacheLookup cache (reqKey today r) = none) ∧
    ((cache.map Prod.fst).Nodup →
      (((run today cache reqs).2).map Prod.fst).Nodup) := by
  refine ⟨fun k => run_invocations_le_one today k reqs cache,
    fun k v h => run_preserves today reqs cache k v h, ?_, ?_,
    fun r h => step_invoked_absent today cache r h,
    fun h => run_nodup today reqs cache h⟩
  · intro o v h
    simp [step, h]
  · intro o v h
    simp [step, h]

theorem C9_cache_at_most_once_witness :
    invocationsFor ("2024-05-01".data) ("2024-05-01".data)
      (run ("2024-05-01".data) []
        [Req.getQuestions (.fail ("x".data)),
         Req.getQuestions (.fail ("y".data))]).1 ≤ 1 ∧
    cacheLookup
      (run ("2024-05-01".data)
        [(("2024-05-01".data), CacheVal.questions defaultQuestions)]
        [Req.getQuestions (.fail ("x".data))]).2 ("2024-05-01".data) =
      some (CacheVal.questions defaultQuestions) ∧
    step ("2024-05-01".data)
        [(("2024-05-01".data), CacheVal.questions defaultQuestions)]
        (Req.getQuestions (.fail ("x".data))) =
      (CacheVal.questions defaultQuestions, false,
        [(("2024-05-01".data), CacheVal.questions defaultQuestions)]) :=
  ⟨(C9_cache_at_most_once ("2024-05-01".data) [] _).1 ("2024-05-01".data),
   (C9_cache_at_most_once ("2024-05-01".data)
      [(("2024-05-01".data), CacheVal.questions defaultQuestions)] _).2.1
      ("2024-05-01".data) (CacheVal.questions defaultQuestions) (by decide),
   (C9_cache_at_most_once ("2024-05-01".data)
      [(("2024-05-01".data), CacheVal.questions defaultQuestions)] []).2.2.1
      (.fail ("x".data)) (CacheVal.questions defaultQuestions) (by decide)⟩

theorem cacheLookup_cons (e : (List Char) × CacheVal) (c : Cache) (k : List Char) :
    cacheLookup (e :: c) k = if e.1 = k then some e.2 else cacheLookup c k := rfl

/-- The shape invariant the two endpoints maintain on the cache for a fixed
date: the bare date key holds a 3-item questions list whose entries are
longer than 5 characters, and the scenario key holds a non-empty scenario
string.  The empty initial cache satisfies it vacuously. -/
def wfCache (today : List Char) (cache : Cache) : Prop :=
  (∀ v, cacheLookup cache today = some v →
    ∃ qs, v = CacheVal.questions qs ∧ qs.length = 3 ∧ ∀ q ∈ qs, 5 < q.length) ∧
  (∀ v, cacheLookup cache (scenarioKey today) = some v →
    ∃ s, v = CacheVal.scenario s ∧ s ≠ [])

theorem step_wf (today : List Char) (cache : Cache) (r : Req)
    (h : wfCache today cache) :
    wfCache today (step today cache r).2.2 ∧
    (∀ o, r = Req.getQuestions o →
      ∃ qs, (step today cache r).1 = CacheVal.questions qs ∧
        qs.length = 3 ∧ ∀ q ∈ qs, 5 < q.length) ∧
    (∀ o, r = Req.getScenario o →
      ∃ s, (step today cache r).1 = CacheVal.scenario s ∧ s ≠ []) := by
  cases r with
  | getQuestions o =>
    cases hlook : cacheLookup cache today with
    | some w =>
      refine ⟨by simpa [step, hlook] using h, ?_, fun o2 ho => Req.noConfusion ho⟩
      intro o2 _
      simp only [step, hlook]
      exact h.1 w hlook
    | none =>
      refine ⟨⟨?_, ?_⟩, ?_, fun o2 ho => Req.noConfusion ho⟩
      · intro v hv
        simp only [step, hlook, cacheLookup_cons, if_pos rfl] at hv
        cases hv
        exact ⟨_, rfl, get_questions_fresh_length _, get_questions_fresh_long _⟩
      · intro v hv
        simp only [step, hlook, cacheLookup_cons] at hv
        rw [if_neg (fun habs => scenarioKey_ne today habs.symm)] at hv
        exact h.2 v hv
      · intro o2 _
        simp only [step, hlook]
        exact ⟨_, rfl, get_questions_fresh_length _, get_questions_fresh_long _⟩
  | getScenario o =>
    cases hlook : cacheLookup cache (scenarioKey today) with
    | some w =>
      refine ⟨by simpa [step, hlook] using h, fun o2 ho => Req.noConfusion ho, ?_⟩
      intro o2 _
      simp only [step, hlook]
      exact h.2 w hlook
    | none =>
      refine ⟨⟨?_, ?_⟩, fun o2 ho => Req.noConfusion ho, ?_⟩
      · intro v hv
        simp only [step, hlook, cacheLookup_cons] at hv
        rw [if_neg (scenarioKey_ne today)] at hv
        exact h.1 v hv
      · intro v hv
        simp only [step, hlook, cacheLookup_cons, if_pos rfl] at hv
        cases hv
        exact ⟨_, rfl, get_scenario_fresh_ne_nil _⟩
      · intro o2 _
        simp only [step, hlook]
        exact ⟨_, rfl, get_scenario_fresh_ne_nil _⟩

theorem run_wf (today : List Char) (reqs : List Req) :
    ∀ cache : Cache, wfCache today cache →
      wfCache today (run today cache reqs).2 ∧
      (∀ e ∈ (run today cache reqs).1,
        (∀ o, e.1 = Req.getQuestions o →
          ∃ qs, e.2.1 = CacheVal.questions qs ∧ qs.length = 3 ∧
            ∀ q ∈ qs, 5 < q.length) ∧
        (∀ o, e.1 = Req.getScenario o →
          ∃ s, e.2.1 = CacheVal.scenario s ∧ s ≠ [])) := by
  induction reqs with
  | nil =>
    intro cache h
    exact ⟨by simpa [run] using h, by simp [run]⟩
  | cons r rs ih =>
    intro cache h
    have hstep := step_wf today cache r h
    have hrest := ih _ hstep.1
    refine ⟨hrest.1, ?_⟩
    intro e he
    simp only [run, List.mem_cons] at he
    rcases he with he | he
    · subst he
      exact hstep.2
    · exact hrest.2 e he

/-- C5: whenever the extraction pipeline leaves fewer than 3 lines the
partial result is discarded for the fixed default list (never a 1- or
2-item list); a freshly produced questions list always has exactly 3
entries; and over any request sequence on a fixed date, every response of
GET /get_questions is a questions list of exactly 3 strings. -/
theorem C5_questions_always_three (today : List Char) (cache : Cache)
    (reqs : List Req) (hwf : wfCache today cache) :
    (∀ text, (extractQuestions text).length < 3 →
      get_questions_fresh text = defaultQuestions) ∧
    (∀ text, (get_questions_fresh text).length = 3) ∧
    (∀ e ∈ (run today cache reqs).1, ∀ o, e.1 = Req.getQuestions o →
      ∃ qs, e.2.1 = CacheVal.questions qs ∧ qs.length = 3) := by
  refine ⟨?_, get_questions_fresh_length, ?_⟩
  · intro text h
    simp [get_questions_fresh, h]
  · intro e he o ho
    rcases ((run_wf today reqs cache hwf).2 e he).1 o ho with ⟨qs, h1, h2, _⟩
    exact ⟨qs, h1, h2⟩

theorem C5_questions_always_three_witness :
    (get_questions_fresh (generate_with_gemini (.fail ("x".data)))).length = 3 :=
  (C5_questions_always_three ("2024-05-01".data) [] []
    ⟨fun _ h => Option.noConfusion h, fun _ h => Option.noConfusion h⟩).2.1
    (generate_with_gemini (.fail ("x".data)))

/-- C10: every string in a questions response of GET /get_questions is
longer than 5 characters: extracted lines are kept only when longer than 5,
each default question is longer than 5, and over any request sequence on a
fixed date every questions response consists of such strings. -/
theorem C10_questions_longer_than_five (today : List Char) (cache : Cache)
    (reqs : List Req) (hwf : wfCache today cache) :
    (∀ text, ∀ q ∈ get_questions_fresh text, 5 < q.length) ∧
    (∀ q ∈ defaultQuestions, 5 < q.length) ∧
    (∀ e ∈ (run today cache reqs).1, ∀ o, e.1 = Req.getQuestions o →
      ∃ qs, e.2.1 = CacheVal.questions qs ∧ ∀ q ∈ qs, 5 < q.length) := by
  refine ⟨get_questions_fresh_long, by decide, ?_⟩
  · intro e he o ho
    rcases ((run_wf today reqs cache hwf).2 e he).1 o ho with ⟨qs, h1, _, h3⟩
    exact ⟨qs, h1, h3⟩

theorem C10_questions_longer_than_five_witness :
    5 < (("Do you avoid sharing feelings because of judgment?".data)).length :=
  (C10_questions_longer_than_five ("2024-05-01".data) [] []
    ⟨fun _ h => Option.noConfusion h, fun _ h => Option.noConfusion h⟩).1
    (generate_with_gemini (.fail ("x".data)))
    ("Do you avoid sharing feelings because of judgment?".data) (by decide)

/-- Case-insensitive character comparison (re.IGNORECASE on ASCII letters). -/
def charIEq (a b : Char) : Bool := pyLowerChar a = pyLowerChar b

/-- Match the literal label at the head of s case-insensitively; on success
return the rest of the string. -/
def matchLabel (label : List Char) (s : List Char) : Option (List Char) :=
  match label, s with
  | [], rest => some rest
  | _ :: _, [] => none
  | l :: ls, c :: cs => if charIEq l c then matchLabel ls cs else none

/-- Try the pattern label backslash-s* colon backslash-s* (.*) at the current
position, returning the capture group.  The two whitespace runs are greedy
and may cross line breaks; greediness is exact here because a colon is never
whitespace, so no backtracking into the runs can succeed; the capture (.*)
stops at the next newline, as the dot does in Python. -/
def matchAt (label : List Char) (s : List Char) : Option (List Char) :=
  match matchLabel label s with
  | none => none
  | some rest =>
    match rest.dropWhile pyIsSpace with
    | ':' :: rest2 =>
      some ((rest2.dropWhile pyIsSpace).takeWhile (fun c => c ≠ '\n'))
    | _ => none

/-- re.search with the pattern above: try each position left to right and
return the first match's capture group. -/
def reSearch (label : List Char) : List Char → Option (List Char)
  | [] =>
    match matchAt label [] with
    | some g => some g
    | none => none
  | c :: cs =>
    match matchAt label (c :: cs) with
    | some g => some g
    | none => reSearch label cs

/-- The default reflection (src/backend/app.py line 149). -/
def defaultReflection : List Char :=
  ("I hear you — it takes courage to share this.".data)

/-- The default tip (src/backend/app.py line 150). -/
def defaultTip : List Char :=
  ("Try writing your thoughts in a journal for 5 minutes today.".data)

/-- The parsing step of ask_ai (src/backend/app.py lines 144-150): two
independent case-insensitive regex searches over the provider text; a found
group is stripped of surrounding whitespace; a missing label falls back to
its own fixed default. -/
def ask_ai_parse (ai_text : List Char) : (List Char) × (List Char) :=
  (match reSearch ("REFLECTION".data) ai_text with
   | some g => pyStrip g
   | none => defaultReflection,
   match reSearch ("TIP".data) ai_text with
   | some g => pyStrip g
   | none => defaultTip)

/-- C8 counterexample: the claim says the reflection is the text after the
first colon on the matched line only, but the regex whitespace run after
the colon crosses the line break: on a text whose REFLECTION line has
nothing after its colon, the extracted reflection is the whole next line
(hi), not the empty text of the matched line. -/
theorem C8_counterexample :
    ask_ai_parse ("REFLECTION:\nhi\nTIP: breathe".data) =
      (("hi".data), ("breathe".data)) ∧
    splitlines ("REFLECTION:\nhi\nTIP: breathe".data) =
      [("REFLECTION:".data), ("hi".data), ("TIP: breathe".data)] := by
  constructor
  · decide
  · decide

/-- C8 amended: reflection and tip are resolved independently — each field
is the stripped capture of its own label search when the label (followed,
possibly across whitespace including line breaks, by a colon) is found, and
each falls back to its own fixed default alone otherwise; the capture runs
from the end of the whitespace run after the colon to the end of that line,
which is the matched line except when the colon is followed only by
whitespace up to a line break. -/
theorem C8_amended_reflection_tip (ai_text : List Char) :
    (reSearch ("REFLECTION".data) ai_text = none →
      (ask_ai_parse ai_text).1 = defaultReflection) ∧
    (∀ g, reSearch ("REFLECTION".data) ai_text = some g →
      (ask_ai_parse ai_text).1 = pyStrip g) ∧
    (reSearch ("TIP".data) ai_text = none →
      (ask_ai_parse ai_text).2 = defaultTip) ∧
    (∀ g, reSearch ("TIP".data) ai_text = some g →
      (ask_ai_parse ai_text).2 = pyStrip g) ∧
    ask_ai_parse ("REFLECTION: hi\nTIP: breathe".data) =
      (("hi".data), ("breathe".data)) ∧
    ask_ai_parse ("TIP: breathe".data) = (defaultReflection, ("breathe".data)) := by
  refine ⟨?_, ?_, ?_, ?_, by decide, by decide⟩
  · intro h
    simp [ask_ai_parse, h]
  · intro g h
    simp [ask_ai_parse, h]
  · intro h
    simp [ask_ai_parse, h]
  · intro g h
    simp [ask_ai_parse, h]

theorem C8_amended_reflection_tip_witness :
    (ask_ai_parse ("no labels here".data)).1 = defaultReflection ∧
    (ask_ai_parse ("REFLECTION: hi\nTIP: breathe".data)).1 = pyStrip ("hi".data) :=
  ⟨(C8_amended_reflection_tip ("no labels here".data)).1 (by decide),
   (C8_amended_reflection_tip ("REFLECTION: hi\nTIP: breathe".data)).2.1
      ("hi".data) (by decide)⟩

end MentalWellness
